import Mathlib

/-!
Verification of the drone-swarm simulator core against its specification.

The development shallowly embeds three Python modules:

* `core/collision_avoidance.py` — over `ℚ` (module `CA` below).  The Python
  code compares `math.sqrt(dx^2+dy^2+dz^2)` against thresholds; we keep the
  squared distance and compare it against the squared threshold through the
  decidable predicates `sqrtLt` / `sqrtGt`, which are proved equivalent to
  the original square-root comparisons over `ℝ`
  (`sqrtLt_iff_sqrt_lt`, `sqrtGt_iff_lt_sqrt`).
* `simulator/drone_simulator.py` — trajectory synthesis over `ℝ`
  (module `Sim`), since segment lengths are genuine square roots.
* `core/coordinate_system.py` — over `ℝ` (module `Geo`), since the
  longitude scale factor uses the cosine.

Python `dict` trajectory points with optional keys become structures with
`Option` fields; `None`-able returns become `Option`; `logger.warning` calls
on the degraded path become an explicit `Bool` in the return value.
-/

namespace DroneSim

/-- Flight phases from `config/settings.py` (`FlightPhase`). -/
inductive FlightPhase where
  | taxi
  | takeoff
  | hover
  | auto
  | loiter
  | landing
deriving DecidableEq, Repr

/-- Conflict severity values used by `collision_avoidance.py`. -/
inductive Severity where
  | warning
  | critical
deriving DecidableEq, Repr

/-- Safety configuration (`config/settings.py`, `SafetyConfig`). -/
structure SafetyConfig where
  safetyDistance : ℚ
  warningDistance : ℚ
  criticalDistance : ℚ
  checkInterval : ℚ
deriving DecidableEq, Repr

/-- The default `SafetyConfig()` (5.0, 8.0, 3.0, 0.1). -/
def defaultSafetyConfig : SafetyConfig := ⟨5, 8, 3, 1/10⟩

namespace CA

/-- One trajectory point as consumed by `collision_avoidance.py`: a dict with
keys `x`, `y`, `z`, `time` and optionally `phase` and `waypoint_index`
(absent keys are `none`). -/
structure Sample where
  x : ℚ
  y : ℚ
  z : ℚ
  time : ℚ
  phase : Option FlightPhase
  waypointIndex : Option ℕ
deriving DecidableEq, Repr

/-- Squared 3D distance; `_calculate_distance_3d` is the square root of this. -/
def distSq (p q : Sample) : ℚ :=
  (p.x - q.x)^2 + (p.y - q.y)^2 + (p.z - q.z)^2

/-- Squared form of the code's comparison `Real.sqrt d < c`, used to embed
comparisons of `_calculate_distance_3d` results against thresholds. -/
def sqrtLt (d c : ℚ) : Prop :=
  0 < c ∧ d < c ^ 2

instance (d c : ℚ) : Decidable (sqrtLt d c) :=
  inferInstanceAs (Decidable (_ ∧ _))

/-- Squared form of the code's comparison `c < Real.sqrt d` (for `0 ≤ d`). -/
def sqrtGt (d c : ℚ) : Prop :=
  c < 0 ∨ c ^ 2 < d

instance (d c : ℚ) : Decidable (sqrtGt d c) :=
  inferInstanceAs (Decidable (_ ∨ _))

/-- Time of `trajectory[-1]` (callers guarantee the list nonempty). -/
def lastTime (traj : List Sample) : ℚ :=
  match traj.getLast? with
  | some s => s.time
  | none => 0

/-- Number of samples of `np.arange(start, stop, step)` for `step > 0`. -/
def arangeLen (start stop step : ℚ) : ℕ :=
  if start < stop then (⌈(stop - start) / step⌉).toNat else 0

/-- The dict built by the linear-interpolation branch of
`_interpolate_position`: only `x`, `y`, `z`, `time` keys (no phase and no
waypoint index). -/
def lerpSample (a b : Sample) (t : ℚ) : Sample :=
  let r := (t - a.time) / (b.time - a.time)
  { x := a.x + r * (b.x - a.x)
    y := a.y + r * (b.y - a.y)
    z := a.z + r * (b.z - a.z)
    time := t
    phase := none
    waypointIndex := none }

/-- The `for i in range(len(trajectory) - 1)` scan of `_interpolate_position`,
returning on the first bracketing pair and `none` if no bracket is found. -/
def interpScan : List Sample → ℚ → Option Sample
  | a :: b :: rest, t =>
    if a.time ≤ t ∧ t ≤ b.time then
      if b.time - a.time = 0 then some a else some (lerpSample a b t)
    else interpScan (b :: rest) t
  | _, _ => none

/-- `_interpolate_position` from `collision_avoidance.py`. -/
def interpolatePosition : List Sample → ℚ → Option Sample
  | [], _ => none
  | s :: rest, t =>
    if lastTime (s :: rest) ≤ t then (s :: rest).getLast?
    else if t ≤ s.time then some s
    else interpScan (s :: rest) t

/-- Accumulator loop of `_find_nearest_waypoint_index`: `minDiff` is `none`
for the initial `float('inf')`, `best` is the running `nearest_idx`. Only
samples that carry a `waypoint_index` key are considered. -/
def findNearestGo (t : ℚ) : List Sample → Option ℚ → ℕ → ℕ
  | [], _, best => best
  | p :: rest, minDiff, best =>
    match p.waypointIndex with
    | some wi =>
      let diff := |p.time - t|
      match minDiff with
      | none => findNearestGo t rest (some diff) wi
      | some m =>
        if diff < m then findNearestGo t rest (some diff) wi
        else findNearestGo t rest minDiff best
    | none => findNearestGo t rest minDiff best

/-- `_find_nearest_waypoint_index` from `collision_avoidance.py`. -/
def findNearestWaypointIndex (traj : List Sample) (t : ℚ) : ℕ :=
  findNearestGo t traj none 0

/-- A conflict dict as produced by `_find_trajectory_conflicts`; the fields
`waitTime`, `priorityDrone`, `waitingDrone` are absent (`none`) at creation
and filled in by `analyze_trajectory_conflicts`.  `distanceSq` holds the
square of the `distance` value stored by the code. -/
structure Conflict where
  time : ℚ
  distanceSq : ℚ
  drone1 : String
  drone2 : String
  position1 : Sample
  position2 : Sample
  waypoint1Index : ℕ
  waypoint2Index : ℕ
  severity : Severity
  waitTime : Option ℚ
  priorityDrone : Option String
  waitingDrone : Option String
deriving DecidableEq, Repr

/-- Body of the sampling loop of `_find_trajectory_conflicts` at one sampled
instant `t`: emit a conflict iff both positions interpolate and their
distance is below the safety distance. -/
def conflictAt (d1 d2 : String) (traj1 traj2 : List Sample)
    (cfg : SafetyConfig) (t : ℚ) : Option Conflict :=
  match interpolatePosition traj1 t, interpolatePosition traj2 t with
  | some p1, some p2 =>
    if sqrtLt (distSq p1 p2) cfg.safetyDistance then
      some { time := t
             distanceSq := distSq p1 p2
             drone1 := d1
             drone2 := d2
             position1 := p1
             position2 := p2
             waypoint1Index := findNearestWaypointIndex traj1 t
             waypoint2Index := findNearestWaypointIndex traj2 t
             severity :=
               if sqrtLt (distSq p1 p2) cfg.criticalDistance then .critical
               else .warning
             waitTime := none
             priorityDrone := none
             waitingDrone := none }
    else none
  | _, _ => none

/-- `_find_trajectory_conflicts`: sample `np.arange(0, max_time, 0.5)`. -/
def findTrajectoryConflicts (d1 : String) (traj1 : List Sample)
    (d2 : String) (traj2 : List Sample) (cfg : SafetyConfig) : List Conflict :=
  let maxTime := max (lastTime traj1) (lastTime traj2)
  (List.range (arangeLen 0 maxTime (1/2))).filterMap
    (fun k : ℕ => conflictAt d1 d2 traj1 traj2 cfg ((k : ℚ) * (1/2)))

/-- Stepping loop of `_calculate_precise_wait_time`: `k` is the current step
index (the sampled time is `t0 + k * 0.1`), `rem` the remaining number of
`np.arange(conflict_time, traj1[-1]['time'], 0.1)` samples.  When the loop
ends without escape the mission-completion wait is returned. -/
def waitGo (traj1 : List Sample) (p2 : Sample) (cfg : SafetyConfig)
    (t0 : ℚ) : ℕ → ℕ → ℚ
  | _, 0 => max (lastTime traj1 - t0 + 5) 5
  | k, rem + 1 =>
    match interpolatePosition traj1 (t0 + (k : ℚ) * (1/10)) with
    | some p1 =>
      if sqrtGt (distSq p1 p2) (cfg.safetyDistance + 2) then
        max ((t0 + (k : ℚ) * (1/10)) - t0) 3
      else waitGo traj1 p2 cfg t0 (k + 1) rem
    | none => waitGo traj1 p2 cfg t0 (k + 1) rem

/-- `_calculate_precise_wait_time` (the `traj2` argument is unused, as in the
source). -/
def calculatePreciseWaitTime (traj1 _traj2 : List Sample) (c : Conflict)
    (cfg : SafetyConfig) : ℚ :=
  waitGo traj1 c.position2 cfg c.time 0
    (arangeLen c.time (lastTime traj1) (1/10))

/-- Ordered pairs `(l[i], l[j])` with `i < j`, as generated by the nested
index loops of `analyze_trajectory_conflicts` and `check_collisions`. -/
def pairsOf : List α → List (α × α)
  | [] => []
  | x :: xs => (xs.map (fun y => (x, y))) ++ pairsOf xs

/-- Association-list lookup standing for Python's `drones_data[key]`. -/
def lookupTraj (k : String) : List (String × List Sample) → Option (List Sample)
  | [] => none
  | (k', v) :: rest => if k' = k then some v else lookupTraj k rest

/-- Python's `sorted` on string keys. -/
def sortStrings (l : List String) : List String :=
  List.insertionSort (· ≤ ·) l

/-- `analyze_trajectory_conflicts`: `drones_data` is modelled as an
association list from drone id to its trajectory (the dict's
`['trajectory']` field); the dict's key order is the list order. -/
def analyzeTrajectoryConflicts (data : List (String × List Sample))
    (cfg : SafetyConfig) : List Conflict :=
  let ids := sortStrings (data.map Prod.fst)
  (pairsOf ids).flatMap (fun pr =>
    match lookupTraj pr.1 data, lookupTraj pr.2 data with
    | some t1, some t2 =>
      if t1 = [] ∨ t2 = [] then []
      else
        (findTrajectoryConflicts pr.1 t1 pr.2 t2 cfg).map (fun c =>
          { c with
            waitTime := some (calculatePreciseWaitTime t1 t2 c cfg)
            priorityDrone := some pr.1
            waitingDrone := some pr.2 })
    | _, _ => [])

/-- A real-time warning dict built by `check_collisions`; `distanceSq` is the
square of the stored `distance`, `position` the midpoint tuple. -/
structure LiveWarning where
  drone1 : String
  drone2 : String
  distanceSq : ℚ
  time : ℚ
  position : ℚ × ℚ × ℚ
  severity : Severity
deriving DecidableEq, Repr

/-- Body of the pairwise loop of `check_collisions` for one pair of current
positions. -/
def checkPairAt (d1 d2 : String) (p1 p2 : Sample) (t : ℚ)
    (cfg : SafetyConfig) : Option LiveWarning :=
  if sqrtLt (distSq p1 p2) cfg.safetyDistance then
    some { drone1 := d1
           drone2 := d2
           distanceSq := distSq p1 p2
           time := t
           position := ((p1.x + p2.x)/2, (p1.y + p2.y)/2, (p1.z + p2.z)/2)
           severity :=
             if sqrtLt (distSq p1 p2) cfg.criticalDistance then .critical
             else .warning }
  else none

/-- Association-list lookup standing for Python's `positions[key]`. -/
def lookupPos (k : String) : List (String × Sample) → Option Sample
  | [] => none
  | (k', v) :: rest => if k' = k then some v else lookupPos k rest

/-- `check_collisions` (warning list only; the returned `new_loiters` dict is
always empty in the source). -/
def checkCollisions (positions : List (String × Sample)) (t : ℚ)
    (cfg : SafetyConfig) : List LiveWarning :=
  let ids := sortStrings (positions.map Prod.fst)
  (pairsOf ids).filterMap (fun pr =>
    match lookupPos pr.1 positions, lookupPos pr.2 positions with
    | some p1, some p2 => checkPairAt pr.1 pr.2 p1 p2 t cfg
    | _, _ => none)

/-- Concrete trajectory showing that interior interpolation drops the phase
tag: two samples at times 0 and 10 with phases `taxi` and `auto`. -/
def c4Traj : List Sample :=
  [⟨0, 0, 0, 0, some FlightPhase.taxi, some 0⟩,
   ⟨10, 0, 0, 10, some FlightPhase.auto, some 1⟩]

/-- The escape condition of the wait-time loop at step `k`: the priority
drone's interpolated position is farther than `safety_distance + 2.0` from
the waiting drone's conflict position. -/
def escapesAt (traj1 : List Sample) (p2 : Sample) (cfg : SafetyConfig)
    (t0 : ℚ) (k : ℕ) : Prop :=
  match interpolatePosition traj1 (t0 + (k : ℚ) * (1/10)) with
  | some p1 => sqrtGt (distSq p1 p2) (cfg.safetyDistance + 2)
  | none => False

/-- Concrete priority trajectory for the wait-time witness: flies from the
origin to `x = 100` between `t = 0` and `t = 10`. -/
def c1Traj : List Sample :=
  [⟨0, 0, 0, 0, none, none⟩, ⟨100, 0, 0, 10, none, none⟩]

/-- Concrete conflict at `t = 0` with the waiting drone at the origin. -/
def c1Conf : Conflict :=
  { time := 0
    distanceSq := 0
    drone1 := ("d1")
    drone2 := ("d2")
    position1 := ⟨0, 0, 0, 0, none, none⟩
    position2 := ⟨0, 0, 0, 0, none, none⟩
    waypoint1Index := 0
    waypoint2Index := 0
    severity := Severity.warning
    waitTime := none
    priorityDrone := none
    waitingDrone := none }

/-- Two-agent population for the determinism witness, in two different
insertion orders. -/
def c6Data1 : List (String × List Sample) :=
  [(("b"), [⟨1, 0, 0, 0, none, none⟩]), (("a"), [⟨0, 0, 0, 0, none, none⟩])]

/-- The same population as `c6Data1`, listed in the opposite order. -/
def c6Data2 : List (String × List Sample) :=
  [(("a"), [⟨0, 0, 0, 0, none, none⟩]), (("b"), [⟨1, 0, 0, 0, none, none⟩])]

end CA

namespace Sim

/-- `LoiterDelay` records appended by the simulator (`{'start_time': …,
'duration': …}`). -/
structure LoiterDelay where
  startTime : ℚ
  duration : ℚ
deriving DecidableEq, Repr

/-- The effective-time resolution loop of `_get_drone_position_at_time`:
scan the delay list in order and stop at the first delay whose
`start_time ≤ t`. -/
def effectiveTime : List LoiterDelay → ℚ → ℚ
  | [], t => t
  | d :: ds, t =>
    if d.startTime ≤ t then max d.startTime (t - d.duration)
    else effectiveTime ds t

/-- `_get_drone_position_at_time` for one drone: resolve the effective time
through the loiter delays, then interpolate the trajectory there. -/
def getDronePositionAtTime (traj : List CA.Sample)
    (delays : List LoiterDelay) (t : ℚ) : Option CA.Sample :=
  if traj = [] then none
  else CA.interpolatePosition traj (effectiveTime delays t)

/-- Delay list for the loiter witness: both delays have started by `t = 3`,
but only the first one applies. -/
def c5Delays : List LoiterDelay := [⟨0, 5⟩, ⟨1, 100⟩]

/-- A waypoint record from the mission loader (lat, lon, alt, command). -/
structure Waypoint where
  lat : ℝ
  lon : ℝ
  alt : ℝ
  cmd : ℕ

/-- A trajectory point produced by `_calculate_realistic_trajectory`.  The
synthesizer fills every key on every point; `waypointIndex` is an `Option`
because the trajectory-point dicts may in general omit the key. -/
structure TrajPoint where
  x : ℝ
  y : ℝ
  z : ℝ
  time : ℝ
  phase : FlightPhase
  lat : ℝ
  lon : ℝ
  alt : ℝ
  waypointIndex : Option ℕ

/-- `SimulatorConfig.DEFAULT_CRUISE_SPEED` (8.0 m/s). -/
noncomputable def cruiseSpeed : ℝ := 8

/-- The projected target position of a waypoint: `(x, y) = proj(lat, lon)`
and `z = wp['alt']`. -/
noncomputable def tgtOf (proj : ℝ → ℝ → ℝ × ℝ) (w : Waypoint) : ℝ × ℝ × ℝ :=
  ((proj w.lat w.lon).1, (proj w.lat w.lon).2, w.alt)

/-- The 3D segment length
`math.sqrt((x-prev_x)**2 + (y-prev_y)**2 + (z-prev_z)**2)`. -/
noncomputable def segDist (prev tgt : ℝ × ℝ × ℝ) : ℝ :=
  Real.sqrt ((tgt.1 - prev.1)^2 + (tgt.2.1 - prev.2.1)^2 +
    (tgt.2.2 - prev.2.2)^2)

/-- `num_segments = max(2, int(distance / 10))` (the distance is positive in
the branch where this is used, so `int` truncation is the floor). -/
noncomputable def numSegs (distance : ℝ) : ℕ :=
  max 2 (⌊distance / 10⌋).toNat

/-- One interpolation point of the AUTO phase at ratio `seg / n`; its time is
`total_time - flight_time + flight_time * ratio` with
`total_time = t0 + ft`, and it carries `waypoint_index = wp_idx - 1`. -/
noncomputable def interpPoint (prev tgt : ℝ × ℝ × ℝ) (t0 ft : ℝ) (n : ℕ)
    (w : Waypoint) (wpIdx : ℕ) (seg : ℕ) : TrajPoint :=
  { x := prev.1 + ((seg : ℝ) / n) * (tgt.1 - prev.1)
    y := prev.2.1 + ((seg : ℝ) / n) * (tgt.2.1 - prev.2.1)
    z := prev.2.2 + ((seg : ℝ) / n) * (tgt.2.2 - prev.2.2)
    time := (t0 + ft) - ft + ft * ((seg : ℝ) / n)
    phase := FlightPhase.auto
    lat := w.lat
    lon := w.lon
    alt := w.alt
    waypointIndex := some (wpIdx - 1) }

/-- The exact waypoint sample appended last for each waypoint, carrying
`waypoint_index = wp_idx`. -/
noncomputable def wpPoint (tgt : ℝ × ℝ × ℝ) (t1 : ℝ) (w : Waypoint)
    (wpIdx : ℕ) : TrajPoint :=
  { x := tgt.1, y := tgt.2.1, z := tgt.2.2, time := t1,
    phase := FlightPhase.auto, lat := w.lat, lon := w.lon, alt := w.alt,
    waypointIndex := some wpIdx }

/-- One iteration of the AUTO-phase loop of `_calculate_realistic_trajectory`
(`for wp_idx, wp in enumerate(waypoints[1:], start=2)`): from the previous
position `prev` and accumulated mission time `t0`, produce the interpolation
points (`for seg in range(1, num_segments)`, inserted only when the segment
is longer than 10 m) followed by the exact waypoint sample, together with
the new previous position and accumulated time. -/
noncomputable def autoSegment (proj : ℝ → ℝ → ℝ × ℝ) (prev : ℝ × ℝ × ℝ)
    (t0 : ℝ) (wpIdx : ℕ) (w : Waypoint) :
    List TrajPoint × ((ℝ × ℝ × ℝ) × ℝ) :=
  let tgt := tgtOf proj w
  let distance := segDist prev tgt
  let flightTime := distance / cruiseSpeed
  let t1 := t0 + flightTime
  let interpPts : List TrajPoint :=
    if 10 < distance then
      (List.range' 1 (numSegs distance - 1)).map
        (interpPoint prev tgt t0 flightTime (numSegs distance) w wpIdx)
    else []
  (interpPts ++ [wpPoint tgt t1 w wpIdx], (tgt, t1))

/-- The whole AUTO-phase loop over the remaining waypoints. -/
noncomputable def autoPhase (proj : ℝ → ℝ → ℝ × ℝ) :
    (ℝ × ℝ × ℝ) → ℝ → ℕ → List Waypoint → List TrajPoint
  | _, _, _, [] => []
  | prev, t0, wpIdx, w :: ws =>
    let res := autoSegment proj prev t0 wpIdx w
    res.1 ++ autoPhase proj res.2.1 res.2.2 (wpIdx + 1) ws

/-- The 20 TAKEOFF samples over `np.linspace(2.0, 7.0, 20)`: altitude ramps
linearly to `takeoffAlt`, the waypoint index switches from 0 to 1 halfway. -/
noncomputable def takeoffSamples (hx hy la lo takeoffAlt : ℝ) :
    List TrajPoint :=
  (List.range 20).map (fun i : ℕ =>
    let t := 2 + (i : ℝ) * 5 / 19
    let progress := (t - 2) / 5
    { x := hx, y := hy, z := progress * takeoffAlt, time := t,
      phase := FlightPhase.takeoff, lat := la, lon := lo,
      alt := progress * takeoffAlt,
      waypointIndex := some (if i < 10 then 0 else 1) })

/-- `_calculate_realistic_trajectory`, parameterized by the coordinate
projection `proj` (the injected `coordinate_system.lat_lon_to_meters`) and
the takeoff configuration values (defaults 10.0 and 2.0).  Fewer than two
waypoints produce an empty trajectory. -/
noncomputable def calculateRealisticTrajectory (proj : ℝ → ℝ → ℝ × ℝ)
    (takeoffAlt hoverTime : ℝ) : List Waypoint → List TrajPoint
  | [] => []
  | [_] => []
  | home :: w1 :: ws =>
    let hp := proj home.lat home.lon
    let taxiPt : TrajPoint :=
      ⟨hp.1, hp.2, 0, 0, FlightPhase.taxi, home.lat, home.lon, 0, some 0⟩
    let tk := takeoffSamples hp.1 hp.2 home.lat home.lon takeoffAlt
    let hoverEnd := 7 + hoverTime
    let hoverPt : TrajPoint :=
      ⟨hp.1, hp.2, takeoffAlt, hoverEnd, FlightPhase.hover,
        home.lat, home.lon, takeoffAlt, some 1⟩
    taxiPt :: (tk ++ hoverPt ::
      autoPhase proj (hp.1, hp.2, takeoffAlt) hoverEnd 2 (w1 :: ws))

/-- The invariant relation of claim C7 between consecutive trajectory
samples: time is non-decreasing, and consecutive samples share a time only
when they share a position (zero motion). -/
def timeOrdered (a b : TrajPoint) : Prop :=
  a.time ≤ b.time ∧ (a.time = b.time → a.x = b.x ∧ a.y = b.y ∧ a.z = b.z)

/-- The previous position for the C3 counterexample: home at the origin at
takeoff altitude 10. -/
noncomputable def c3Prev : ℝ × ℝ × ℝ := (0, 0, 10)

/-- The counterexample waypoint: projected position (30, 40), altitude 10,
i.e. 50 m from `c3Prev`. -/
noncomputable def c3W : Waypoint := ⟨30, 40, 10, 16⟩

/-- Identity-like projection for the counterexample. -/
noncomputable def c3Proj : ℝ → ℝ → ℝ × ℝ := fun la lo => (la, lo)

/-- Degenerate projection for the monotonicity witness. -/
noncomputable def c7Proj : ℝ → ℝ → ℝ × ℝ := fun _ _ => (0, 0)

/-- A two-waypoint mission for the monotonicity witness. -/
noncomputable def c7Waypoints : List Waypoint := [⟨0, 0, 0, 16⟩, ⟨0, 0, 10, 16⟩]

end Sim

namespace Geo

/-- `METERS_PER_DEGREE_LAT` from `config/settings.py` (111111.0). -/
noncomputable def metersPerDegreeLat : ℝ := 111111

/-- `math.radians`. -/
noncomputable def radians (deg : ℝ) : ℝ := deg * Real.pi / 180

/-- The longitude scale factor computed by `set_origin`:
`METERS_PER_DEGREE_LAT * math.cos(math.radians(lat))`. -/
noncomputable def metersPerDegreeLonOf (lat : ℝ) : ℝ :=
  metersPerDegreeLat * Real.cos (radians lat)

/-- The mutable state of `EarthCoordinateSystem`: `origin_lat`, `origin_lon`
and `_meters_per_degree_lon`, all initialized to `None`. -/
structure EarthCoordinateSystem where
  originLat : Option ℝ
  originLon : Option ℝ
  metersPerDegreeLon : Option ℝ

/-- The freshly constructed coordinate system (`__init__`). -/
def ecsInit : EarthCoordinateSystem := ⟨none, none, none⟩

/-- `set_origin`: stores the origin and precomputes the longitude factor. -/
noncomputable def setOrigin (lat lon : ℝ) (_e : EarthCoordinateSystem) :
    EarthCoordinateSystem :=
  { originLat := some lat
    originLon := some lon
    metersPerDegreeLon := some (metersPerDegreeLonOf lat) }

/-- `lat_lon_to_meters`; the `Bool` component records whether the
unset-origin warning was logged.  If the origin is unset the degenerate
result `(0, 0)` is returned and the warning is signalled; no exception is
raised (the embedding is total) and the state is not modified (the method
performs no attribute writes). -/
noncomputable def latLonToMeters (e : EarthCoordinateSystem)
    (lat lon : ℝ) : (ℝ × ℝ) × Bool :=
  match e.originLat, e.originLon with
  | some olat, some olon =>
    (((lon - olon) * e.metersPerDegreeLon.getD 0,
      (lat - olat) * metersPerDegreeLat), false)
  | _, _ => ((0, 0), true)

/-- `meters_to_lat_lon`; the `Bool` component records the unset-origin
warning.  The longitude division by the precomputed factor is unguarded. -/
noncomputable def metersToLatLon (e : EarthCoordinateSystem)
    (x y : ℝ) : (ℝ × ℝ) × Bool :=
  match e.originLat, e.originLon with
  | some olat, some olon =>
    ((olat + y / metersPerDegreeLat,
      olon + x / e.metersPerDegreeLon.getD 0), false)
  | _, _ => ((0, 0), true)

end Geo

namespace CA

theorem distSq_nonneg (p q : Sample) : 0 ≤ distSq p q := by
  unfold distSq; positivity

/-- The squared comparison agrees with the code's `sqrt dist < c`. -/
theorem sqrtLt_iff_sqrt_lt (d c : ℚ) :
    sqrtLt d c ↔ Real.sqrt (d : ℝ) < (c : ℝ) := by
  unfold sqrtLt
  rcases le_or_lt c 0 with hc | hc
  · constructor
    · rintro ⟨h1, _⟩; exact absurd h1 (not_lt.mpr hc)
    · intro h
      exact absurd (lt_of_le_of_lt (Real.sqrt_nonneg _) h)
        (not_lt.mpr (by exact_mod_cast hc))
  · have hc' : (0:ℝ) < (c:ℝ) := by exact_mod_cast hc
    rw [Real.sqrt_lt' hc']
    constructor
    · rintro ⟨_, h2⟩; exact_mod_cast h2
    · intro h; exact ⟨hc, by exact_mod_cast h⟩

/-- The squared comparison agrees with the code's `sqrt dist > c`. -/
theorem sqrtGt_iff_lt_sqrt (d c : ℚ) :
    sqrtGt d c ↔ (c : ℝ) < Real.sqrt (d : ℝ) := by
  unfold sqrtGt
  rcases lt_or_le c 0 with hc | hc
  · have : (c:ℝ) < Real.sqrt (d:ℝ) :=
      lt_of_lt_of_le (by exact_mod_cast hc) (Real.sqrt_nonneg _)
    tauto
  · have hc' : (0:ℝ) ≤ (c:ℝ) := by exact_mod_cast hc
    rw [Real.lt_sqrt hc']
    constructor
    · rintro (h1 | h2)
      · exact absurd h1 (not_lt.mpr hc)
      · exact_mod_cast h2
    · intro h; exact Or.inr (by exact_mod_cast h)

/-- Helper: `lastTime` is the time of the last sample. -/
theorem lastTime_eq {traj : List Sample} {g : Sample}
    (h : traj.getLast? = some g) : lastTime traj = g.time := by
  unfold lastTime; rw [h]

/-- The scan of `_interpolate_position` finds a bracketing consecutive pair
when the query time lies between the head's time and the last time. -/
theorem interpScan_bracket :
    ∀ (l : List Sample) (t : ℚ), l ≠ [] →
    List.Chain' (fun a b => a.time ≤ b.time) l →
    (∀ h, l.head? = some h → h.time ≤ t) →
    (∀ g, l.getLast? = some g → t < g.time) →
    ∃ u a b v, l = u ++ a :: b :: v ∧ a.time ≤ t ∧ t ≤ b.time ∧
      interpScan l t = some (if b.time - a.time = 0 then a
                             else lerpSample a b t)
  | [], _, hne, _, _, _ => absurd rfl hne
  | [x], t, _, _, hh, hg => by
    have h1 : x.time ≤ t := hh x rfl
    have h2 : t < x.time := hg x rfl
    exact absurd h1 (not_le.mpr h2)
  | a :: b :: rest, t, _, hc, hh, hg => by
    have hat : a.time ≤ t := hh a rfl
    by_cases htb : t ≤ b.time
    · refine ⟨[], a, b, rest, rfl, hat, htb, ?_⟩
      unfold interpScan
      rw [if_pos ⟨hat, htb⟩]
      by_cases hz : b.time - a.time = 0
      · rw [if_pos hz, if_pos hz]
      · rw [if_neg hz, if_neg hz]
    · have hbt : b.time < t := not_le.mp htb
      have hc' : List.Chain' (fun p q => p.time ≤ q.time) (b :: rest) :=
        hc.tail
      have hne' : (b :: rest) ≠ [] := by simp
      have hh' : ∀ h, (b :: rest).head? = some h → h.time ≤ t := by
        intro h hh2
        simp only [List.head?_cons, Option.some.injEq] at hh2
        rw [← hh2]; exact le_of_lt hbt
      have hg' : ∀ g, (b :: rest).getLast? = some g → t < g.time := by
        intro g hg2
        exact hg g (by rw [List.getLast?_cons_cons]; exact hg2)
      obtain ⟨u, x, y, v, heq, hx, hy, hscan⟩ :=
        interpScan_bracket (b :: rest) t hne' hc' hh' hg'
      refine ⟨a :: u, x, y, v, by rw [List.cons_append, ← heq], hx, hy, ?_⟩
      unfold interpScan
      rw [if_neg (by intro hcon; exact htb hcon.2)]
      exact hscan

/-- Claim C4 (amended): temporal interpolation.  The empty trajectory yields
no result; `t ≥` the last sample's time returns the last sample exactly;
otherwise `t ≤` the first sample's time returns the first sample exactly;
otherwise a bracketing consecutive pair is located and the linear
interpolation of `x`, `y`, `z` at `t` is returned as a sample carrying only
coordinates and the query time (`lerpSample`: no phase tag, no waypoint
index), the earlier bracket sample itself being returned when the pair
shares a time. -/
theorem interpolate_position_cases (traj : List Sample) (t : ℚ) :
    (traj = [] → interpolatePosition traj t = none)
    ∧ (traj ≠ [] → lastTime traj ≤ t →
        interpolatePosition traj t = traj.getLast?)
    ∧ (∀ s rest, traj = s :: rest → t < lastTime traj → t ≤ s.time →
        interpolatePosition traj t = some s)
    ∧ (List.Chain' (fun a b => a.time ≤ b.time) traj →
        ∀ s rest, traj = s :: rest → s.time < t → t < lastTime traj →
        ∃ u a b v, traj = u ++ a :: b :: v ∧ a.time ≤ t ∧ t ≤ b.time ∧
          interpolatePosition traj t =
            some (if b.time - a.time = 0 then a else lerpSample a b t)) := by
  refine ⟨?_, ?_, ?_, ?_⟩
  · intro h; rw [h]; rfl
  · intro hne hle
    match traj with
    | s :: rest =>
      show interpolatePosition (s :: rest) t = _
      simp only [interpolatePosition]
      rw [if_pos hle]
  · intro s rest heq hlt hle
    subst heq
    simp only [interpolatePosition]
    rw [if_neg (not_le.mpr hlt), if_pos hle]
  · intro hchain s rest heq hst hlt
    subst heq
    have hres : interpolatePosition (s :: rest) t = interpScan (s :: rest) t := by
      simp only [interpolatePosition]
      rw [if_neg (not_le.mpr hlt), if_neg (not_le.mpr hst)]
    obtain ⟨u, a, b, v, h1, h2, h3, h4⟩ :=
      interpScan_bracket (s :: rest) t (by simp) hchain
        (by intro h hh
            simp only [List.head?_cons, Option.some.injEq] at hh
            rw [← hh]; exact le_of_lt hst)
        (by intro g hg
            rw [lastTime_eq hg] at hlt
            exact hlt)
    exact ⟨u, a, b, v, h1, h2, h3, by rw [hres]; exact h4⟩

/-- Claim C4 as stated is false: interpolating `c4Traj` at `t = 5` yields the
correctly interpolated coordinates but a sample with NO phase tag, not the
earlier bracket sample's tag `taxi`. -/
theorem interpolate_drops_phase_counterexample :
    interpolatePosition c4Traj 5 =
      some ⟨5, 0, 0, 5, none, none⟩
    ∧ c4Traj.head?.map Sample.phase = some (some FlightPhase.taxi)
    ∧ (interpolatePosition c4Traj 5).map Sample.phase ≠
        some (some FlightPhase.taxi) := by
  have h : interpolatePosition c4Traj 5 = some ⟨5, 0, 0, 5, none, none⟩ := by
    simp only [c4Traj, interpolatePosition, interpScan, lerpSample, lastTime,
      List.getLast?_cons_cons, List.getLast?_singleton]
    norm_num
  refine ⟨h, rfl, ?_⟩
  rw [h]
  simp

/-- Witness for `interpolate_position_cases`: the interior case on `c4Traj`
at `t = 5`. -/
theorem interpolate_position_cases_witness :
    ∃ u a b v, c4Traj = u ++ a :: b :: v ∧ a.time ≤ 5 ∧ 5 ≤ b.time ∧
      interpolatePosition c4Traj 5 =
        some (if b.time - a.time = 0 then a else lerpSample a b 5) :=
  (interpolate_position_cases c4Traj 5).2.2.2
    (by simp [c4Traj, List.chain'_cons])
    ⟨0, 0, 0, 0, some FlightPhase.taxi, some 0⟩
    [⟨10, 0, 0, 10, some FlightPhase.auto, some 1⟩]
    rfl (by norm_num)
    (by simp only [c4Traj, lastTime, List.getLast?_cons_cons,
          List.getLast?_singleton]
        norm_num)

/-- One unfolding step of the wait-time loop. -/
theorem waitGo_succ (traj1 : List Sample) (p2 : Sample) (cfg : SafetyConfig)
    (t0 : ℚ) (k r : ℕ) :
    waitGo traj1 p2 cfg t0 k (r + 1) =
      match interpolatePosition traj1 (t0 + (k : ℚ) * (1/10)) with
      | some p1 =>
        if sqrtGt (distSq p1 p2) (cfg.safetyDistance + 2) then
          max ((t0 + (k : ℚ) * (1/10)) - t0) 3
        else waitGo traj1 p2 cfg t0 (k + 1) r
      | none => waitGo traj1 p2 cfg t0 (k + 1) r := rfl

theorem waitGo_escape (traj1 : List Sample) (p2 : Sample) (cfg : SafetyConfig)
    (t0 : ℚ) :
    ∀ rem k i, i < rem → escapesAt traj1 p2 cfg t0 (k + i) →
    (∀ j, j < i → ¬ escapesAt traj1 p2 cfg t0 (k + j)) →
    waitGo traj1 p2 cfg t0 k rem = max (((k + i : ℕ) : ℚ) * (1/10)) 3 := by
  intro rem
  induction rem with
  | zero => intro k i hi; exact absurd hi (Nat.not_lt_zero i)
  | succ r ih =>
    intro k i hi hesc hmin
    match i with
    | 0 =>
      rw [Nat.add_zero] at hesc
      unfold escapesAt at hesc
      rw [waitGo_succ]
      cases hp : interpolatePosition traj1 (t0 + (k : ℚ) * (1/10)) with
      | none => rw [hp] at hesc; exact absurd hesc (by simp)
      | some p1 =>
        rw [hp] at hesc
        dsimp only
        rw [if_pos hesc]
        congr 1
        push_cast
        ring
    | i' + 1 =>
      have hne : ¬ escapesAt traj1 p2 cfg t0 (k + 0) :=
        hmin 0 (Nat.succ_pos i')
      rw [Nat.add_zero] at hne
      have hrec : waitGo traj1 p2 cfg t0 k (r + 1) =
          waitGo traj1 p2 cfg t0 (k + 1) r := by
        unfold escapesAt at hne
        rw [waitGo_succ]
        cases hp : interpolatePosition traj1 (t0 + (k : ℚ) * (1/10)) with
        | none => rfl
        | some p1 =>
          rw [hp] at hne
          dsimp only
          rw [if_neg hne]
      rw [hrec]
      have := ih (k + 1) i' (Nat.lt_of_succ_lt_succ hi)
        (by rw [show k + 1 + i' = k + (i' + 1) by ring]; exact hesc)
        (by intro j hj
            rw [show k + 1 + j = k + (j + 1) by ring]
            exact hmin (j + 1) (Nat.succ_lt_succ hj))
      rw [show k + 1 + i' = k + (i' + 1) from by omega] at this
      exact this

theorem waitGo_complete (traj1 : List Sample) (p2 : Sample)
    (cfg : SafetyConfig) (t0 : ℚ) :
    ∀ rem k, (∀ i, i < rem → ¬ escapesAt traj1 p2 cfg t0 (k + i)) →
    waitGo traj1 p2 cfg t0 k rem = max (lastTime traj1 - t0 + 5) 5 := by
  intro rem
  induction rem with
  | zero => intro k _; rfl
  | succ r ih =>
    intro k hmin
    have hne : ¬ escapesAt traj1 p2 cfg t0 (k + 0) :=
      hmin 0 (Nat.succ_pos r)
    rw [Nat.add_zero] at hne
    have hrec : waitGo traj1 p2 cfg t0 k (r + 1) =
        waitGo traj1 p2 cfg t0 (k + 1) r := by
      unfold escapesAt at hne
      rw [waitGo_succ]
      cases hp : interpolatePosition traj1 (t0 + (k : ℚ) * (1/10)) with
      | none => rfl
      | some p1 =>
        rw [hp] at hne
        dsimp only
        rw [if_neg hne]
    rw [hrec]
    exact ih (k + 1) (by
      intro i hi
      rw [show k + 1 + i = k + (i + 1) by ring]
      exact hmin (i + 1) (Nat.succ_lt_succ hi))

/-- Claim C1: precise wait time.  Stepping along the priority trajectory in
0.1 s increments from the conflict time `c.time`, with the waiting drone's
conflict position `c.position2` fixed: if the first escape (3D distance
exceeding `safety_distance + 2.0`) happens at step `k0` (time
`c.time + k0 * 0.1`), the returned wait time is `max(k0 * 0.1, 3.0)`; if no
step before the priority trajectory's last sample time escapes, it is
`max(last_time - c.time + 5.0, 5.0)`.  Consequently the result is at least
3.0 in the escape case and at least 5.0 in the mission-completion case. -/
theorem wait_time_spec (traj1 traj2 : List Sample) (c : Conflict)
    (cfg : SafetyConfig) :
    (∀ (k : ℕ) p1,
      interpolatePosition traj1 (c.time + (k : ℚ) * (1/10)) = some p1 →
      (escapesAt traj1 c.position2 cfg c.time k ↔
        (cfg.safetyDistance : ℝ) + 2 <
          Real.sqrt ((distSq p1 c.position2 : ℚ) : ℝ)))
    ∧ (∀ k0, k0 < arangeLen c.time (lastTime traj1) (1/10) →
        escapesAt traj1 c.position2 cfg c.time k0 →
        (∀ k', k' < k0 → ¬ escapesAt traj1 c.position2 cfg c.time k') →
        calculatePreciseWaitTime traj1 traj2 c cfg =
          max ((k0 : ℚ) * (1/10)) 3
        ∧ 3 ≤ calculatePreciseWaitTime traj1 traj2 c cfg)
    ∧ ((∀ k, k < arangeLen c.time (lastTime traj1) (1/10) →
          ¬ escapesAt traj1 c.position2 cfg c.time k) →
        calculatePreciseWaitTime traj1 traj2 c cfg =
          max (lastTime traj1 - c.time + 5) 5
        ∧ 5 ≤ calculatePreciseWaitTime traj1 traj2 c cfg) := by
  refine ⟨?_, ?_, ?_⟩
  · intro k p1 hp
    unfold escapesAt
    rw [hp]
    dsimp only
    rw [sqrtGt_iff_lt_sqrt]
    constructor
    · intro h; push_cast at h; exact h
    · intro h; push_cast; exact h
  · intro k0 hk0 hesc hmin
    have h := waitGo_escape traj1 c.position2 cfg c.time
      (arangeLen c.time (lastTime traj1) (1/10)) 0 k0 hk0
      (by rw [Nat.zero_add]; exact hesc)
      (by intro j hj; rw [Nat.zero_add]; exact hmin j hj)
    rw [Nat.zero_add] at h
    unfold calculatePreciseWaitTime
    rw [h]
    exact ⟨rfl, le_max_right _ _⟩
  · intro hnone
    have h := waitGo_complete traj1 c.position2 cfg c.time
      (arangeLen c.time (lastTime traj1) (1/10)) 0
      (by intro i hi; rw [Nat.zero_add]; exact hnone i hi)
    unfold calculatePreciseWaitTime
    rw [h]
    exact ⟨rfl, le_max_right _ _⟩

/-- Witness for `wait_time_spec`: on `c1Traj` the priority drone first
exceeds distance 7 from the origin at step 8 (t = 0.8 s, x = 8), so the
wait time is `max(0.8, 3.0) = 3.0`. -/
theorem wait_time_spec_witness :
    calculatePreciseWaitTime c1Traj c1Traj c1Conf defaultSafetyConfig =
      max (((8 : ℕ) : ℚ) * (1/10)) 3
    ∧ 3 ≤ calculatePreciseWaitTime c1Traj c1Traj c1Conf defaultSafetyConfig :=
  (wait_time_spec c1Traj c1Traj c1Conf defaultSafetyConfig).2.1 8
    (by norm_num [arangeLen, c1Conf, c1Traj, lastTime, defaultSafetyConfig])
    (by norm_num [escapesAt, c1Conf, c1Traj, defaultSafetyConfig,
          interpolatePosition, interpScan, lerpSample, lastTime,
          sqrtGt, distSq])
    (by intro k' hk'
        interval_cases k' <;>
          norm_num [escapesAt, c1Conf, c1Traj, defaultSafetyConfig,
            interpolatePosition, interpScan, lerpSample, lastTime,
            sqrtGt, distSq])

/-- Claim C2: conflict emission and severity, for both the offline
trajectory analysis (`conflictAt` is the loop body of
`_find_trajectory_conflicts`, which emits exactly the non-`none` results
over the sampled instants `k * 0.5`) and the real-time pairwise check
(`checkPairAt` is the loop body of `check_collisions`): an event is emitted
iff the 3D distance is below `safety_distance`, and its severity is
`critical` iff the distance is below `critical_distance`, else `warning`. -/
theorem conflict_emission_severity (d1 d2 : String)
    (traj1 traj2 : List Sample) (cfg : SafetyConfig) :
    (∀ t p1 p2, interpolatePosition traj1 t = some p1 →
      interpolatePosition traj2 t = some p2 →
      ((conflictAt d1 d2 traj1 traj2 cfg t).isSome ↔
        Real.sqrt ((distSq p1 p2 : ℚ) : ℝ) < (cfg.safetyDistance : ℝ))
      ∧ ∀ c, conflictAt d1 d2 traj1 traj2 cfg t = some c →
        ((c.severity = Severity.critical ↔
            Real.sqrt ((distSq p1 p2 : ℚ) : ℝ) < (cfg.criticalDistance : ℝ))
         ∧ (c.severity = Severity.warning ↔
            ¬ Real.sqrt ((distSq p1 p2 : ℚ) : ℝ) < (cfg.criticalDistance : ℝ))))
    ∧ (∀ c, c ∈ findTrajectoryConflicts d1 traj1 d2 traj2 cfg ↔
        ∃ k : ℕ,
          k < arangeLen 0 (max (lastTime traj1) (lastTime traj2)) (1/2) ∧
          conflictAt d1 d2 traj1 traj2 cfg ((k : ℚ) * (1/2)) = some c)
    ∧ (∀ da db pa pb tt,
        ((checkPairAt da db pa pb tt cfg).isSome ↔
          Real.sqrt ((distSq pa pb : ℚ) : ℝ) < (cfg.safetyDistance : ℝ))
        ∧ ∀ w, checkPairAt da db pa pb tt cfg = some w →
          ((w.severity = Severity.critical ↔
              Real.sqrt ((distSq pa pb : ℚ) : ℝ) < (cfg.criticalDistance : ℝ))
           ∧ (w.severity = Severity.warning ↔
              ¬ Real.sqrt ((distSq pa pb : ℚ) : ℝ) <
                (cfg.criticalDistance : ℝ)))) := by
  refine ⟨?_, ?_, ?_⟩
  · intro t p1 p2 hp1 hp2
    constructor
    · unfold conflictAt
      rw [hp1, hp2]
      dsimp only
      by_cases hs : sqrtLt (distSq p1 p2) cfg.safetyDistance
      · rw [if_pos hs]
        simp only [Option.isSome_some, true_iff]
        exact (sqrtLt_iff_sqrt_lt _ _).mp hs
      · rw [if_neg hs]
        simp only [Option.isSome_none, Bool.false_eq_true, false_iff]
        intro hcon
        exact hs ((sqrtLt_iff_sqrt_lt _ _).mpr hcon)
    · intro c hc
      unfold conflictAt at hc
      rw [hp1, hp2] at hc
      dsimp only at hc
      by_cases hs : sqrtLt (distSq p1 p2) cfg.safetyDistance
      · rw [if_pos hs] at hc
        have hsev : c.severity =
            (if sqrtLt (distSq p1 p2) cfg.criticalDistance then
              Severity.critical else Severity.warning) := by
          rw [← Option.some_inj] at hc
          cases hc
          rfl
        by_cases hcrit : sqrtLt (distSq p1 p2) cfg.criticalDistance
        · rw [if_pos hcrit] at hsev
          constructor
          · rw [hsev]
            exact ⟨fun _ => (sqrtLt_iff_sqrt_lt _ _).mp hcrit, fun _ => rfl⟩
          · rw [hsev]
            constructor
            · intro hcon; exact absurd hcon (by decide)
            · intro hcon
              exact absurd ((sqrtLt_iff_sqrt_lt _ _).mp hcrit) hcon
        · rw [if_neg hcrit] at hsev
          constructor
          · rw [hsev]
            constructor
            · intro hcon; exact absurd hcon (by decide)
            · intro hcon
              exact absurd ((sqrtLt_iff_sqrt_lt _ _).mpr hcon) hcrit
          · rw [hsev]
            refine ⟨fun _ hcon => ?_, fun _ => rfl⟩
            exact hcrit ((sqrtLt_iff_sqrt_lt _ _).mpr hcon)
      · rw [if_neg hs] at hc
        exact absurd hc (by simp)
  · intro c
    unfold findTrajectoryConflicts
    rw [List.mem_filterMap]
    constructor
    · rintro ⟨k, hk, hck⟩
      exact ⟨k, List.mem_range.mp hk, hck⟩
    · rintro ⟨k, hk, hck⟩
      exact ⟨k, List.mem_range.mpr hk, hck⟩
  · intro da db pa pb tt
    constructor
    · unfold checkPairAt
      by_cases hs : sqrtLt (distSq pa pb) cfg.safetyDistance
      · rw [if_pos hs]
        simp only [Option.isSome_some, true_iff]
        exact (sqrtLt_iff_sqrt_lt _ _).mp hs
      · rw [if_neg hs]
        simp only [Option.isSome_none, Bool.false_eq_true, false_iff]
        intro hcon
        exact hs ((sqrtLt_iff_sqrt_lt _ _).mpr hcon)
    · intro w hw
      unfold checkPairAt at hw
      by_cases hs : sqrtLt (distSq pa pb) cfg.safetyDistance
      · rw [if_pos hs] at hw
        have hsev : w.severity =
            (if sqrtLt (distSq pa pb) cfg.criticalDistance then
              Severity.critical else Severity.warning) := by
          rw [← Option.some_inj] at hw
          cases hw
          rfl
        by_cases hcrit : sqrtLt (distSq pa pb) cfg.criticalDistance
        · rw [if_pos hcrit] at hsev
          refine ⟨?_, ?_⟩
          · rw [hsev]
            exact ⟨fun _ => (sqrtLt_iff_sqrt_lt _ _).mp hcrit, fun _ => rfl⟩
          · rw [hsev]
            constructor
            · intro hcon; exact absurd hcon (by decide)
            · intro hcon
              exact absurd ((sqrtLt_iff_sqrt_lt _ _).mp hcrit) hcon
        · rw [if_neg hcrit] at hsev
          refine ⟨?_, ?_⟩
          · rw [hsev]
            constructor
            · intro hcon; exact absurd hcon (by decide)
            · intro hcon
              exact absurd ((sqrtLt_iff_sqrt_lt _ _).mpr hcon) hcrit
          · rw [hsev]
            refine ⟨fun _ hcon => ?_, fun _ => rfl⟩
            exact hcrit ((sqrtLt_iff_sqrt_lt _ _).mpr hcon)
      · rw [if_neg hs] at hw
        exact absurd hw (by simp)

/-- Witness for `conflict_emission_severity`: two drones 4 m apart at
`t = 0` with the default configuration (safety 5, critical 3) — an event is
emitted iff `4 < 5` and its severity is `warning` since `¬ 4 < 3`. -/
theorem conflict_emission_severity_witness :
    ((conflictAt ("a") ("b")
        [⟨0, 0, 0, 0, none, none⟩] [⟨4, 0, 0, 0, none, none⟩]
        defaultSafetyConfig 0).isSome ↔
      Real.sqrt ((distSq ⟨0, 0, 0, 0, none, none⟩ ⟨4, 0, 0, 0, none, none⟩ :
          ℚ) : ℝ) < ((defaultSafetyConfig.safetyDistance : ℚ) : ℝ))
    ∧ ∀ c, conflictAt ("a") ("b")
        [⟨0, 0, 0, 0, none, none⟩] [⟨4, 0, 0, 0, none, none⟩]
        defaultSafetyConfig 0 = some c →
      ((c.severity = Severity.critical ↔
          Real.sqrt ((distSq ⟨0, 0, 0, 0, none, none⟩
              ⟨4, 0, 0, 0, none, none⟩ : ℚ) : ℝ) <
            ((defaultSafetyConfig.criticalDistance : ℚ) : ℝ))
       ∧ (c.severity = Severity.warning ↔
          ¬ Real.sqrt ((distSq ⟨0, 0, 0, 0, none, none⟩
              ⟨4, 0, 0, 0, none, none⟩ : ℚ) : ℝ) <
            ((defaultSafetyConfig.criticalDistance : ℚ) : ℝ))) :=
  (conflict_emission_severity ("a") ("b")
      [⟨0, 0, 0, 0, none, none⟩] [⟨4, 0, 0, 0, none, none⟩]
      defaultSafetyConfig).1 0
    ⟨0, 0, 0, 0, none, none⟩ ⟨4, 0, 0, 0, none, none⟩
    (by norm_num [interpolatePosition, lastTime])
    (by norm_num [interpolatePosition, lastTime])

theorem pairsOf_pairwise {α : Type} {R : α → α → Prop} :
    ∀ l : List α, List.Pairwise R l → ∀ a b, (a, b) ∈ pairsOf l → R a b := by
  intro l
  induction l with
  | nil => intro _ a b h; simp [pairsOf] at h
  | cons x xs ih =>
    intro hp a b h
    simp only [pairsOf, List.mem_append, List.mem_map] at h
    rcases h with ⟨y, hy, heq⟩ | h
    · cases heq
      exact (List.pairwise_cons.mp hp).1 _ hy
    · exact ih (List.pairwise_cons.mp hp).2 a b h

theorem sortStrings_sorted_lt (l : List String) (h : l.Nodup) :
    List.Sorted (· < ·) (sortStrings l) := by
  have hs : List.Sorted (· ≤ ·) (sortStrings l) :=
    List.sorted_insertionSort _ l
  have hnd : (sortStrings l).Nodup :=
    ((List.perm_insertionSort (· ≤ ·) l).nodup_iff).mpr h
  exact (hs.and hnd).imp (fun hab => lt_of_le_of_ne hab.1 hab.2)

theorem sortStrings_eq_of_perm {l1 l2 : List String} (p : l1.Perm l2) :
    sortStrings l1 = sortStrings l2 :=
  List.eq_of_perm_of_sorted
    ((List.perm_insertionSort (· ≤ ·) l1).trans
      (p.trans (List.perm_insertionSort (· ≤ ·) l2).symm))
    (List.sorted_insertionSort _ l1) (List.sorted_insertionSort _ l2)

theorem lookupTraj_perm :
    ∀ {l1 l2 : List (String × List Sample)}, l1.Perm l2 →
    (l1.map Prod.fst).Nodup → ∀ k, lookupTraj k l1 = lookupTraj k l2 := by
  intro l1 l2 p
  induction p with
  | nil => intro _ k; rfl
  | cons x p ih =>
    intro hnd k
    obtain ⟨xk, xv⟩ := x
    simp only [lookupTraj]
    by_cases hxk : xk = k
    · rw [if_pos hxk, if_pos hxk]
    · rw [if_neg hxk, if_neg hxk]
      simp only [List.map_cons, List.nodup_cons] at hnd
      exact ih hnd.2 k
  | swap x y l =>
    intro hnd k
    obtain ⟨xk, xv⟩ := x
    obtain ⟨yk, yv⟩ := y
    have hne : yk ≠ xk := by
      simp only [List.map_cons, List.nodup_cons, List.mem_cons] at hnd
      exact fun h => hnd.1 (Or.inl h)
    simp only [lookupTraj]
    by_cases h1 : yk = k <;> by_cases h2 : xk = k
    · exact absurd (h1.trans h2.symm) hne
    · rw [if_pos h1, if_neg h2, if_pos h1]
    · rw [if_neg h1, if_pos h2, if_pos h2]
    · rw [if_neg h1, if_neg h2, if_neg h2, if_neg h1]
  | trans p1 p2 ih1 ih2 =>
    intro hnd k
    have hnd2 := ((p1.map Prod.fst).nodup_iff).mp hnd
    exact (ih1 hnd k).trans (ih2 hnd2 k)

/-- Claim C6: priority determinism.  The offline analysis sorts the agent
identifiers; every emitted conflict names the lexically smaller agent of its
pair as `priority_drone` and the larger as `waiting_drone`, and the whole
analysis result is unchanged under any reordering of the input mapping. -/
theorem priority_determinism (data1 data2 : List (String × List Sample))
    (cfg : SafetyConfig) (hnd : (data1.map Prod.fst).Nodup)
    (hp : data1.Perm data2) :
    analyzeTrajectoryConflicts data1 cfg = analyzeTrajectoryConflicts data2 cfg
    ∧ ∀ c ∈ analyzeTrajectoryConflicts data1 cfg,
        ∃ p w, c.priorityDrone = some p ∧ c.waitingDrone = some w ∧ p < w := by
  constructor
  · unfold analyzeTrajectoryConflicts
    have hids : sortStrings (data1.map Prod.fst) =
        sortStrings (data2.map Prod.fst) :=
      sortStrings_eq_of_perm (hp.map Prod.fst)
    have hlk : ∀ k, lookupTraj k data1 = lookupTraj k data2 :=
      lookupTraj_perm hp hnd
    rw [hids]
    simp only [hlk]
  · intro c hc
    unfold analyzeTrajectoryConflicts at hc
    rw [List.mem_flatMap] at hc
    obtain ⟨pr, hpr, hcin⟩ := hc
    obtain ⟨a, b⟩ := pr
    have hab : a < b := by
      have hsorted := sortStrings_sorted_lt (data1.map Prod.fst) hnd
      exact pairsOf_pairwise _ hsorted a b hpr
    cases h1 : lookupTraj a data1 with
    | none =>
      rw [h1] at hcin
      cases h2 : lookupTraj b data1 with
      | none => rw [h2] at hcin; exact absurd hcin (by simp)
      | some t2 => rw [h2] at hcin; exact absurd hcin (by simp)
    | some t1 =>
      cases h2 : lookupTraj b data1 with
      | none => rw [h1, h2] at hcin; exact absurd hcin (by simp)
      | some t2 =>
        rw [h1, h2] at hcin
        dsimp only at hcin
        by_cases hemp : t1 = [] ∨ t2 = []
        · rw [if_pos hemp] at hcin; exact absurd hcin (by simp)
        · rw [if_neg hemp] at hcin
          rw [List.mem_map] at hcin
          obtain ⟨c0, _, hceq⟩ := hcin
          exact ⟨a, b, by rw [← hceq], by rw [← hceq], hab⟩

/-- Witness for `priority_determinism` on the two orders of the same
two-agent population. -/
theorem priority_determinism_witness :
    analyzeTrajectoryConflicts c6Data1 defaultSafetyConfig =
      analyzeTrajectoryConflicts c6Data2 defaultSafetyConfig
    ∧ ∀ c ∈ analyzeTrajectoryConflicts c6Data1 defaultSafetyConfig,
        ∃ p w, c.priorityDrone = some p ∧ c.waitingDrone = some w ∧ p < w :=
  priority_determinism c6Data1 c6Data2 defaultSafetyConfig
    (by simp [c6Data1])
    (by unfold c6Data1 c6Data2; exact List.Perm.swap _ _ _)

end CA

namespace Sim

theorem effectiveTime_no_match :
    ∀ (delays : List LoiterDelay) (t : ℚ),
    (∀ d ∈ delays, ¬ d.startTime ≤ t) → effectiveTime delays t = t := by
  intro delays t
  induction delays with
  | nil => intro _; rfl
  | cons d ds ih =>
    intro hall
    simp only [effectiveTime]
    rw [if_neg (hall d (List.mem_cons_self d ds))]
    exact ih (fun d' hd' => hall d' (List.mem_cons_of_mem d hd'))

theorem effectiveTime_first_match :
    ∀ (pre : List LoiterDelay) (d : LoiterDelay) (post : List LoiterDelay)
      (t : ℚ),
    (∀ d' ∈ pre, ¬ d'.startTime ≤ t) → d.startTime ≤ t →
    effectiveTime (pre ++ d :: post) t = max d.startTime (t - d.duration) := by
  intro pre
  induction pre with
  | nil =>
    intro d post t _ hle
    simp only [List.nil_append, effectiveTime]
    rw [if_pos hle]
  | cons d0 pre' ih =>
    intro d post t hpre hle
    simp only [List.cons_append, effectiveTime]
    rw [if_neg (hpre d0 (List.mem_cons_self _ _))]
    exact ih d post t (fun d' hd' => hpre d' (List.mem_cons_of_mem _ hd')) hle

/-- Claim C5: loiter effective-time lookup.  The position lookup scans the
delay list in order; with no delay whose `start_time ≤ t` the effective time
is `t` itself; with a first such delay `d` (arbitrary delays after it,
matching or not, are ignored) the effective time is
`max(d.start_time, t - d.duration)`; the trajectory is then interpolated at
the effective time. -/
theorem loiter_effective_time (traj : List CA.Sample)
    (delays : List LoiterDelay) (t : ℚ) :
    ((∀ d ∈ delays, ¬ d.startTime ≤ t) → effectiveTime delays t = t)
    ∧ (∀ pre d post, delays = pre ++ d :: post →
        (∀ d' ∈ pre, ¬ d'.startTime ≤ t) → d.startTime ≤ t →
        effectiveTime delays t = max d.startTime (t - d.duration))
    ∧ (traj ≠ [] →
        getDronePositionAtTime traj delays t =
          CA.interpolatePosition traj (effectiveTime delays t)) := by
  refine ⟨effectiveTime_no_match delays t, ?_, ?_⟩
  · intro pre d post heq hpre hle
    rw [heq]
    exact effectiveTime_first_match pre d post t hpre hle
  · intro hne
    unfold getDronePositionAtTime
    rw [if_neg hne]

/-- Witness for `loiter_effective_time`: at `t = 3` the first delay
(start 0, duration 5) applies and the second (start 1, duration 100) is
ignored, so the effective time is `max(0, 3 - 5)`. -/
theorem loiter_effective_time_witness :
    effectiveTime c5Delays 3 =
      max ((⟨0, 5⟩ : LoiterDelay).startTime)
        (3 - (⟨0, 5⟩ : LoiterDelay).duration) :=
  (loiter_effective_time [⟨0, 0, 0, 0, none, none⟩] c5Delays 3).2.1
    [] ⟨0, 5⟩ [⟨1, 100⟩] rfl (by simp) (by norm_num)

theorem timeOrdered_of_lt {a b : TrajPoint} (h : a.time < b.time) :
    timeOrdered a b :=
  ⟨le_of_lt h, fun he => absurd he (ne_of_lt h)⟩

theorem segDist_nonneg (prev tgt : ℝ × ℝ × ℝ) : 0 ≤ segDist prev tgt :=
  Real.sqrt_nonneg _

theorem segDist_eq_zero {prev tgt : ℝ × ℝ × ℝ} (h : segDist prev tgt = 0) :
    tgt = prev := by
  unfold segDist at h
  have h0 : (0:ℝ) ≤ (tgt.1 - prev.1)^2 + (tgt.2.1 - prev.2.1)^2 +
      (tgt.2.2 - prev.2.2)^2 := by positivity
  have hsum := (Real.sqrt_eq_zero h0).mp h
  have q1 := sq_nonneg (tgt.1 - prev.1)
  have q2 := sq_nonneg (tgt.2.1 - prev.2.1)
  have q3 := sq_nonneg (tgt.2.2 - prev.2.2)
  have ha : (tgt.1 - prev.1)^2 = 0 := le_antisymm (by linarith) q1
  have hb : (tgt.2.1 - prev.2.1)^2 = 0 := le_antisymm (by linarith) q2
  have hc : (tgt.2.2 - prev.2.2)^2 = 0 := le_antisymm (by linarith) q3
  have e1 := sub_eq_zero.mp (pow_eq_zero_iff two_ne_zero |>.mp ha)
  have e2 := sub_eq_zero.mp (pow_eq_zero_iff two_ne_zero |>.mp hb)
  have e3 := sub_eq_zero.mp (pow_eq_zero_iff two_ne_zero |>.mp hc)
  exact Prod.ext e1 (Prod.ext e2 e3)

theorem numSegs_ge_two (d : ℝ) : 2 ≤ numSegs d := le_max_left _ _

theorem interpPoint_time (prev tgt : ℝ × ℝ × ℝ) (t0 ft : ℝ) (n : ℕ)
    (w : Waypoint) (wpIdx seg : ℕ) :
    (interpPoint prev tgt t0 ft n w wpIdx seg).time =
      t0 + ft * ((seg : ℝ) / n) := by
  simp only [interpPoint]
  ring

theorem autoSegment_big (proj : ℝ → ℝ → ℝ × ℝ) (prev : ℝ × ℝ × ℝ)
    (t0 : ℝ) (wpIdx : ℕ) (w : Waypoint)
    (hbig : 10 < segDist prev (tgtOf proj w)) :
    autoSegment proj prev t0 wpIdx w =
      ((List.range' 1 (numSegs (segDist prev (tgtOf proj w)) - 1)).map
        (interpPoint prev (tgtOf proj w) t0
          (segDist prev (tgtOf proj w) / cruiseSpeed)
          (numSegs (segDist prev (tgtOf proj w))) w wpIdx) ++
        [wpPoint (tgtOf proj w)
          (t0 + segDist prev (tgtOf proj w) / cruiseSpeed) w wpIdx],
       (tgtOf proj w, t0 + segDist prev (tgtOf proj w) / cruiseSpeed)) := by
  simp only [autoSegment]
  rw [if_pos hbig]

theorem autoSegment_small (proj : ℝ → ℝ → ℝ × ℝ) (prev : ℝ × ℝ × ℝ)
    (t0 : ℝ) (wpIdx : ℕ) (w : Waypoint)
    (hsmall : ¬ 10 < segDist prev (tgtOf proj w)) :
    autoSegment proj prev t0 wpIdx w =
      ([wpPoint (tgtOf proj w)
          (t0 + segDist prev (tgtOf proj w) / cruiseSpeed) w wpIdx],
       (tgtOf proj w, t0 + segDist prev (tgtOf proj w) / cruiseSpeed)) := by
  simp only [autoSegment]
  rw [if_neg hsmall, List.nil_append]

theorem chain'_map_range'_of_succ {β : Type} (f : ℕ → β) (R : β → β → Prop)
    (s m : ℕ) (h : ∀ i, R (f (s + i)) (f (s + i + 1))) :
    List.Chain' R ((List.range' s m).map f) := by
  rw [List.range'_eq_map_range, List.map_map]
  cases m with
  | zero => simp
  | succ m' =>
    rw [List.chain'_map, List.chain'_range_succ]
    intro i _
    simpa [Nat.add_assoc] using h i

theorem bigList_spec (prev tgt : ℝ × ℝ × ℝ) (t0 ft : ℝ) (n : ℕ)
    (w : Waypoint) (wpIdx : ℕ) (hft : 0 < ft) (hn : 2 ≤ n) :
    List.Chain' timeOrdered
      ((List.range' 1 (n - 1)).map (interpPoint prev tgt t0 ft n w wpIdx) ++
        [wpPoint tgt (t0 + ft) w wpIdx])
    ∧ (∀ h, ((List.range' 1 (n - 1)).map
          (interpPoint prev tgt t0 ft n w wpIdx) ++
        [wpPoint tgt (t0 + ft) w wpIdx]).head? = some h → t0 < h.time) := by
  obtain ⟨k, rfl⟩ : ∃ k, n = k + 2 := ⟨n - 2, by omega⟩
  have hnR : (0:ℝ) < ((k + 2 : ℕ) : ℝ) := by positivity
  have hmono : ∀ s1 s2 : ℕ, s1 < s2 →
      (interpPoint prev tgt t0 ft (k + 2) w wpIdx s1).time <
      (interpPoint prev tgt t0 ft (k + 2) w wpIdx s2).time := by
    intro s1 s2 hs
    rw [interpPoint_time, interpPoint_time]
    have hdiv : (s1 : ℝ) / ((k + 2 : ℕ) : ℝ) < (s2 : ℝ) / ((k + 2 : ℕ) : ℝ) := by
      gcongr
    nlinarith [mul_lt_mul_of_pos_left hdiv hft]
  have hlast : ((List.range' 1 (k + 2 - 1)).map
      (interpPoint prev tgt t0 ft (k + 2) w wpIdx)).getLast? =
      some (interpPoint prev tgt t0 ft (k + 2) w wpIdx (1 + k)) := by
    rw [show k + 2 - 1 = k + 1 from rfl, List.range'_concat, List.map_append,
      List.map_singleton, one_mul]
    exact List.getLast?_concat _
  have hlast_lt : (interpPoint prev tgt t0 ft (k + 2) w wpIdx (1 + k)).time <
      t0 + ft := by
    rw [interpPoint_time]
    have hr : ((1 + k : ℕ) : ℝ) / ((k + 2 : ℕ) : ℝ) < 1 := by
      rw [div_lt_one hnR]
      push_cast
      linarith
    nlinarith [mul_lt_mul_of_pos_left hr hft]
  constructor
  · rw [List.chain'_append]
    refine ⟨?_, List.chain'_singleton _, ?_⟩
    · exact chain'_map_range'_of_succ _ _ 1 (k + 2 - 1)
        (fun i => timeOrdered_of_lt (hmono _ _ (by omega)))
    · intro xx hxx yy hyy
      rw [hlast] at hxx
      rw [List.head?_cons] at hyy
      have hx' : interpPoint prev tgt t0 ft (k + 2) w wpIdx (1 + k) = xx := by
        simpa using hxx
      have hy' : wpPoint tgt (t0 + ft) w wpIdx = yy := by
        simpa using hyy
      rw [← hx', ← hy']
      exact timeOrdered_of_lt hlast_lt
  · intro h hh
    rw [show k + 2 - 1 = k + 1 from rfl, List.range'_succ, List.map_cons,
      List.cons_append, List.head?_cons] at hh
    have hh' : h = interpPoint prev tgt t0 ft (k + 2) w wpIdx 1 :=
      (Option.some_inj.mp hh).symm
    rw [hh', interpPoint_time]
    have hr : (0:ℝ) < ((1 : ℕ) : ℝ) / ((k + 2 : ℕ) : ℝ) := by positivity
    nlinarith [mul_pos hft hr]

theorem cruiseSpeed_pos : (0 : ℝ) < cruiseSpeed := by
  unfold cruiseSpeed; norm_num

/-- Per-segment invariants of the AUTO phase: the produced sample list is
nonempty and `timeOrdered`-chained; its head starts no earlier than `t0` and
coincides with `t0` only when it sits at the previous position; its last
element is the waypoint sample at the new accumulated time and position. -/
theorem autoSegment_spec (proj : ℝ → ℝ → ℝ × ℝ) (prev : ℝ × ℝ × ℝ)
    (t0 : ℝ) (wpIdx : ℕ) (w : Waypoint) :
    (autoSegment proj prev t0 wpIdx w).1 ≠ []
    ∧ List.Chain' timeOrdered (autoSegment proj prev t0 wpIdx w).1
    ∧ (∀ h, (autoSegment proj prev t0 wpIdx w).1.head? = some h →
        t0 ≤ h.time ∧ (h.time = t0 → (h.x, h.y, h.z) = prev))
    ∧ (∃ g, (autoSegment proj prev t0 wpIdx w).1.getLast? = some g ∧
        g.time = (autoSegment proj prev t0 wpIdx w).2.2 ∧
        (g.x, g.y, g.z) = (autoSegment proj prev t0 wpIdx w).2.1)
    ∧ t0 ≤ (autoSegment proj prev t0 wpIdx w).2.2 := by
  have hd0 : 0 ≤ segDist prev (tgtOf proj w) := segDist_nonneg _ _
  have hft0 : 0 ≤ segDist prev (tgtOf proj w) / cruiseSpeed :=
    div_nonneg hd0 (le_of_lt cruiseSpeed_pos)
  by_cases hbig : 10 < segDist prev (tgtOf proj w)
  · rw [autoSegment_big proj prev t0 wpIdx w hbig]
    have hft : 0 < segDist prev (tgtOf proj w) / cruiseSpeed := by
      apply div_pos (lt_trans (by norm_num) hbig) cruiseSpeed_pos
    have hspec := bigList_spec prev (tgtOf proj w) t0
      (segDist prev (tgtOf proj w) / cruiseSpeed)
      (numSegs (segDist prev (tgtOf proj w))) w wpIdx hft
      (numSegs_ge_two _)
    refine ⟨by simp, hspec.1, ?_, ?_, ?_⟩
    · intro h hh
      have hlt := hspec.2 h hh
      exact ⟨le_of_lt hlt, fun he => absurd he.symm (ne_of_lt hlt)⟩
    · refine ⟨wpPoint (tgtOf proj w)
        (t0 + segDist prev (tgtOf proj w) / cruiseSpeed) w wpIdx,
        List.getLast?_concat _, rfl, rfl⟩
    · linarith
  · rw [autoSegment_small proj prev t0 wpIdx w hbig]
    refine ⟨by simp, List.chain'_singleton _, ?_, ?_, ?_⟩
    · intro h hh
      rw [List.head?_cons] at hh
      have hh' : h = wpPoint (tgtOf proj w)
          (t0 + segDist prev (tgtOf proj w) / cruiseSpeed) w wpIdx :=
        (Option.some_inj.mp hh).symm
      subst hh'
      constructor
      · show t0 ≤ t0 + segDist prev (tgtOf proj w) / cruiseSpeed
        linarith
      · intro he
        have hfz : segDist prev (tgtOf proj w) / cruiseSpeed = 0 := by
          have : t0 + segDist prev (tgtOf proj w) / cruiseSpeed = t0 := he
          linarith
        have hdz : segDist prev (tgtOf proj w) = 0 := by
          field_simp [ne_of_gt cruiseSpeed_pos] at hfz
          exact hfz
        have := segDist_eq_zero hdz
        show ((tgtOf proj w).1, (tgtOf proj w).2.1, (tgtOf proj w).2.2) = prev
        rw [this]
    · exact ⟨wpPoint (tgtOf proj w)
        (t0 + segDist prev (tgtOf proj w) / cruiseSpeed) w wpIdx,
        rfl, rfl, rfl⟩
    · linarith

/-- The AUTO-phase loop preserves the chain invariant: the whole produced
list is `timeOrdered`-chained and its head (if any) starts no earlier than
`t0`, coinciding with `t0` only at the previous position. -/
theorem autoPhase_spec (proj : ℝ → ℝ → ℝ × ℝ) :
    ∀ (ws : List Waypoint) (prev : ℝ × ℝ × ℝ) (t0 : ℝ) (wpIdx : ℕ),
    List.Chain' timeOrdered (autoPhase proj prev t0 wpIdx ws)
    ∧ (∀ h, (autoPhase proj prev t0 wpIdx ws).head? = some h →
        t0 ≤ h.time ∧ (h.time = t0 → (h.x, h.y, h.z) = prev)) := by
  intro ws
  induction ws with
  | nil =>
    intro prev t0 wpIdx
    exact ⟨List.chain'_nil, by intro h hh; simp [autoPhase] at hh⟩
  | cons w ws ih =>
    intro prev t0 wpIdx
    obtain ⟨hne, hchain, hhead, ⟨g, hg, hgt, hgp⟩, hle⟩ :=
      autoSegment_spec proj prev t0 wpIdx w
    obtain ⟨ihchain, ihhead⟩ :=
      ih (autoSegment proj prev t0 wpIdx w).2.1
        (autoSegment proj prev t0 wpIdx w).2.2 (wpIdx + 1)
    constructor
    · show List.Chain' timeOrdered
        ((autoSegment proj prev t0 wpIdx w).1 ++ autoPhase proj _ _ _ ws)
      rw [List.chain'_append]
      refine ⟨hchain, ihchain, ?_⟩
      intro xx hxx yy hyy
      have hxg : g = xx := by
        rw [hg] at hxx
        simpa using hxx
      have hyy' : (autoPhase proj (autoSegment proj prev t0 wpIdx w).2.1
          (autoSegment proj prev t0 wpIdx w).2.2 (wpIdx + 1) ws).head? =
          some yy := by
        simpa using hyy
      obtain ⟨hy1, hy2⟩ := ihhead yy hyy'
      constructor
      · rw [← hxg, hgt]; exact hy1
      · intro he
        rw [← hxg] at he ⊢
        rw [hgt] at he
        have h2 := hy2 he.symm
        rw [← hgp] at h2
        simp only [Prod.mk.injEq] at h2
        exact ⟨h2.1.symm, h2.2.1.symm, h2.2.2.symm⟩
    · intro h hh
      show t0 ≤ h.time ∧ (h.time = t0 → (h.x, h.y, h.z) = prev)
      have hh' : (autoSegment proj prev t0 wpIdx w).1.head? = some h := by
        have hh2 : ((autoSegment proj prev t0 wpIdx w).1 ++
            autoPhase proj (autoSegment proj prev t0 wpIdx w).2.1
              (autoSegment proj prev t0 wpIdx w).2.2 (wpIdx + 1)
              ws).head? = some h := hh
        rw [List.head?_append] at hh2
        cases hcase : (autoSegment proj prev t0 wpIdx w).1.head? with
        | none =>
          exact absurd hcase (by
            cases hl : (autoSegment proj prev t0 wpIdx w).1 with
            | nil => exact absurd hl hne
            | cons a l => simp [hl])
        | some a =>
          rw [hcase] at hh2
          simpa using hh2
      exact hhead h hh'

theorem takeoff_chain (hx hy la lo alt : ℝ) :
    List.Chain' timeOrdered (takeoffSamples hx hy la lo alt) := by
  unfold takeoffSamples
  rw [List.chain'_map, List.chain'_range_succ]
  intro m _
  apply timeOrdered_of_lt
  show 2 + (m : ℝ) * 5 / 19 < 2 + ((m + 1 : ℕ) : ℝ) * 5 / 19
  have hc : (m : ℝ) < ((m + 1 : ℕ) : ℝ) := by
    push_cast
    linarith
  gcongr

theorem takeoff_head (hx hy la lo alt : ℝ) :
    ∃ h, (takeoffSamples hx hy la lo alt).head? = some h ∧ h.time = 2 := by
  unfold takeoffSamples
  rw [List.head?_map, show (List.range 20).head? = some 0 from rfl]
  refine ⟨_, rfl, ?_⟩
  show 2 + ((0 : ℕ) : ℝ) * 5 / 19 = 2
  norm_num

theorem takeoff_last (hx hy la lo alt : ℝ) :
    ∃ g, (takeoffSamples hx hy la lo alt).getLast? = some g ∧
      g.time = 7 ∧ g.x = hx ∧ g.y = hy ∧ g.z = alt := by
  unfold takeoffSamples
  rw [List.getLast?_map, show (List.range 20).getLast? = some 19 from by rfl]
  refine ⟨_, rfl, ?_, rfl, rfl, ?_⟩
  · show 2 + ((19 : ℕ) : ℝ) * 5 / 19 = 7
    norm_num
  · show (2 + ((19 : ℕ) : ℝ) * 5 / 19 - 2) / 5 * alt = alt
    norm_num

/-- Claim C7: trajectory time monotonicity.  For every waypoint list the
synthesizer accepts (at least two waypoints) and every projection and
non-negative hover time, the produced trajectory is `timeOrdered`-chained —
sample times are non-decreasing and two consecutive samples share a time
only when they share a position (zero motion) — and the first sample's time
is 0. -/
theorem trajectory_monotone (proj : ℝ → ℝ → ℝ × ℝ)
    (takeoffAlt hoverTime : ℝ) (ws : List Waypoint)
    (hhover : 0 ≤ hoverTime) (hlen : 2 ≤ ws.length) :
    List.Chain' timeOrdered
      (calculateRealisticTrajectory proj takeoffAlt hoverTime ws)
    ∧ (calculateRealisticTrajectory proj takeoffAlt hoverTime ws).head?.map
        TrajPoint.time = some 0 := by
  rcases ws with _ | ⟨home, rest⟩
  · simp at hlen
  rcases rest with _ | ⟨w1, ws'⟩
  · simp at hlen
  simp only [calculateRealisticTrajectory]
  constructor
  · rw [List.chain'_cons']
    constructor
    · intro y hy
      rw [List.head?_append] at hy
      obtain ⟨h0, hh0, hh0t⟩ := takeoff_head (proj home.lat home.lon).1
        (proj home.lat home.lon).2 home.lat home.lon takeoffAlt
      rw [hh0, Option.or_some] at hy
      have hyh : h0 = y := by simpa using hy
      apply timeOrdered_of_lt
      show (0 : ℝ) < y.time
      rw [← hyh, hh0t]
      norm_num
    · rw [List.chain'_append]
      refine ⟨takeoff_chain _ _ _ _ _, ?_, ?_⟩
      · rw [List.chain'_cons']
        constructor
        · intro y hy
          have hspec := (autoPhase_spec proj (w1 :: ws')
            ((proj home.lat home.lon).1, (proj home.lat home.lon).2,
              takeoffAlt) (7 + hoverTime) 2).2 y (by simpa using hy)
          constructor
          · exact hspec.1
          · intro he
            have h2 := hspec.2 he.symm
            simp only [Prod.mk.injEq] at h2
            exact ⟨h2.1.symm, h2.2.1.symm, h2.2.2.symm⟩
        · exact (autoPhase_spec proj (w1 :: ws')
            ((proj home.lat home.lon).1, (proj home.lat home.lon).2,
              takeoffAlt) (7 + hoverTime) 2).1
      · intro x hxk y hy
        obtain ⟨g, hg, hgt, hgx, hgy, hgz⟩ := takeoff_last
          (proj home.lat home.lon).1 (proj home.lat home.lon).2
          home.lat home.lon takeoffAlt
        rw [hg] at hxk
        have hxg : g = x := by simpa using hxk
        rw [List.head?_cons] at hy
        have hyh : (⟨(proj home.lat home.lon).1,
            (proj home.lat home.lon).2, takeoffAlt, 7 + hoverTime,
            FlightPhase.hover, home.lat, home.lon, takeoffAlt, some 1⟩ :
            TrajPoint) = y := by
          simpa using hy
        constructor
        · rw [← hxg, ← hyh, hgt]
          show (7 : ℝ) ≤ 7 + hoverTime
          linarith
        · intro _
          rw [← hxg, ← hyh]
          exact ⟨hgx, hgy, hgz⟩
  · rfl

/-- Claim C3 (amended): AUTO-phase synthesis per waypoint.  For every
waypoint after the first whose 3D segment distance from the previous
position exceeds 10 m, the synthesizer inserts exactly
`max(2, floor(distance/10)) - 1` evenly time-spaced interpolated samples
before the waypoint sample (sample `i` at time `t0 + flight_time * (i+1)/n`
with `n = max(2, floor(distance/10))`), each tagged phase AUTO and carrying
waypoint-index `wp_idx - 1`; it then appends the exact waypoint sample last
with phase AUTO and waypoint-index `wp_idx`, where the waypoint at position
`p ≥ 1` of the original list is processed with `wp_idx = p + 1` (the
enumeration starts at 2). -/
theorem auto_phase_synthesis (proj : ℝ → ℝ → ℝ × ℝ) :
    (∀ (prev : ℝ × ℝ × ℝ) (t0 : ℝ) (wpIdx : ℕ) (w : Waypoint),
      10 < segDist prev (tgtOf proj w) →
      (autoSegment proj prev t0 wpIdx w).1.length =
        numSegs (segDist prev (tgtOf proj w))
      ∧ (∀ i, i < numSegs (segDist prev (tgtOf proj w)) - 1 →
          (autoSegment proj prev t0 wpIdx w).1[i]? =
            some (interpPoint prev (tgtOf proj w) t0
              (segDist prev (tgtOf proj w) / cruiseSpeed)
              (numSegs (segDist prev (tgtOf proj w))) w wpIdx (1 + i)))
      ∧ (autoSegment proj prev t0 wpIdx w).1.getLast? =
          some (wpPoint (tgtOf proj w)
            (t0 + segDist prev (tgtOf proj w) / cruiseSpeed) w wpIdx))
    ∧ (∀ (prev tgt : ℝ × ℝ × ℝ) (t0 ft : ℝ) (n : ℕ) (w : Waypoint)
        (wpIdx seg : ℕ),
        (interpPoint prev tgt t0 ft n w wpIdx seg).phase = FlightPhase.auto
        ∧ (interpPoint prev tgt t0 ft n w wpIdx seg).waypointIndex =
            some (wpIdx - 1)
        ∧ (interpPoint prev tgt t0 ft n w wpIdx seg).time =
            t0 + ft * ((seg : ℝ) / n))
    ∧ (∀ (tgt : ℝ × ℝ × ℝ) (t1 : ℝ) (w : Waypoint) (wpIdx : ℕ),
        (wpPoint tgt t1 w wpIdx).phase = FlightPhase.auto
        ∧ (wpPoint tgt t1 w wpIdx).waypointIndex = some wpIdx)
    ∧ (∀ (ws : List Waypoint) (j : ℕ) (hj : j < ws.length)
        (prev : ℝ × ℝ × ℝ) (t0 : ℝ) (idx : ℕ),
        ∃ pre suf p' t', autoPhase proj prev t0 idx ws =
          pre ++ (autoSegment proj p' t' (idx + j) (ws.get ⟨j, hj⟩)).1 ++ suf)
    ∧ (∀ (takeoffAlt hoverTime : ℝ) (home w1 : Waypoint)
        (ws' : List Waypoint),
        calculateRealisticTrajectory proj takeoffAlt hoverTime
            (home :: w1 :: ws') =
          (⟨(proj home.lat home.lon).1, (proj home.lat home.lon).2, 0, 0,
            FlightPhase.taxi, home.lat, home.lon, 0, some 0⟩ : TrajPoint) ::
          (takeoffSamples (proj home.lat home.lon).1
              (proj home.lat home.lon).2 home.lat home.lon takeoffAlt ++
            (⟨(proj home.lat home.lon).1, (proj home.lat home.lon).2,
              takeoffAlt, 7 + hoverTime, FlightPhase.hover, home.lat,
              home.lon, takeoffAlt, some 1⟩ : TrajPoint) ::
            autoPhase proj ((proj home.lat home.lon).1,
              (proj home.lat home.lon).2, takeoffAlt) (7 + hoverTime) 2
              (w1 :: ws'))) := by
  refine ⟨?_, ?_, ?_, ?_, ?_⟩
  · intro prev t0 wpIdx w hbig
    have h2 := numSegs_ge_two (segDist prev (tgtOf proj w))
    rw [autoSegment_big proj prev t0 wpIdx w hbig]
    refine ⟨?_, ?_, List.getLast?_concat _⟩
    · simp only [List.length_append, List.length_map, List.length_range',
        List.length_singleton]
      omega
    · intro i hi
      rw [List.getElem?_append_left
        (by simpa only [List.length_map, List.length_range'] using hi)]
      rw [List.getElem?_map, List.getElem?_range' 1 1 hi]
      simp only [one_mul]
      rfl
  · intro prev tgt t0 ft n w wpIdx seg
    exact ⟨rfl, rfl, interpPoint_time prev tgt t0 ft n w wpIdx seg⟩
  · intro tgt t1 w wpIdx
    exact ⟨rfl, rfl⟩
  · intro ws
    induction ws with
    | nil => intro j hj; simp at hj
    | cons w tail ih =>
      intro j hj prev t0 idx
      match j with
      | 0 =>
        refine ⟨[], autoPhase proj (autoSegment proj prev t0 idx w).2.1
          (autoSegment proj prev t0 idx w).2.2 (idx + 1) tail, prev, t0, ?_⟩
        rw [Nat.add_zero, List.nil_append]
        rfl
      | j' + 1 =>
        obtain ⟨pre', suf', p', t', heq⟩ :=
          ih j' (Nat.lt_of_succ_lt_succ hj)
            (autoSegment proj prev t0 idx w).2.1
            (autoSegment proj prev t0 idx w).2.2 (idx + 1)
        refine ⟨(autoSegment proj prev t0 idx w).1 ++ pre', suf', p', t', ?_⟩
        show (autoSegment proj prev t0 idx w).1 ++
          autoPhase proj (autoSegment proj prev t0 idx w).2.1
            (autoSegment proj prev t0 idx w).2.2 (idx + 1) tail = _
        rw [heq]
        rw [show idx + 1 + j' = idx + (j' + 1) from by omega]
        simp only [List.append_assoc]
        rfl
  · intro takeoffAlt hoverTime home w1 ws'
    rfl

theorem c3_segDist : segDist c3Prev (tgtOf c3Proj c3W) = 50 := by
  unfold segDist tgtOf c3Prev c3Proj c3W
  norm_num
  rw [show (2500 : ℝ) = 50 ^ 2 from by norm_num]
  exact Real.sqrt_sq (by norm_num)

theorem c3_numSegs : numSegs (segDist c3Prev (tgtOf c3Proj c3W)) = 5 := by
  rw [c3_segDist]
  unfold numSegs
  rw [show (50 : ℝ) / 10 = ((5 : ℤ) : ℝ) from by norm_num, Int.floor_intCast]
  rfl

/-- Claim C3 as stated is false at a 50 m segment (`c3Prev` to `c3W`,
processed as the second waypoint, `wp_idx = 2`): the claim demands
`max(2, floor(50/10)) = 5` inserted interpolated samples (6 samples in
total) carrying no waypoint-index, and a final waypoint-index equal to the
waypoint's position 1 in the original list; the code produces 5 samples in
total (4 interpolated), the first interpolated sample carries
waypoint-index 1, and the final waypoint sample carries waypoint-index 2. -/
theorem auto_phase_counterexample :
    (autoSegment c3Proj c3Prev 9 2 c3W).1.length = 5
    ∧ numSegs (segDist c3Prev (tgtOf c3Proj c3W)) = 5
    ∧ ((autoSegment c3Proj c3Prev 9 2 c3W).1.head?.map
        TrajPoint.waypointIndex) = some (some 1)
    ∧ ((autoSegment c3Proj c3Prev 9 2 c3W).1.getLast?.map
        TrajPoint.waypointIndex) = some (some 2) := by
  have hbig : 10 < segDist c3Prev (tgtOf c3Proj c3W) := by
    rw [c3_segDist]
    norm_num
  rw [autoSegment_big c3Proj c3Prev 9 2 c3W hbig, c3_numSegs]
  refine ⟨?_, rfl, ?_, ?_⟩
  · simp [List.length_range']
  · rw [show (5 - 1 : ℕ) = 3 + 1 from rfl, List.range'_succ, List.map_cons,
      List.cons_append, List.head?_cons]
    rfl
  · rw [List.getLast?_concat]
    rfl

/-- Witness for `auto_phase_synthesis`: the long-segment characterization
applied to the concrete 50 m segment of the counterexample. -/
theorem auto_phase_synthesis_witness :
    (autoSegment c3Proj c3Prev 9 2 c3W).1.length =
        numSegs (segDist c3Prev (tgtOf c3Proj c3W))
    ∧ (∀ i, i < numSegs (segDist c3Prev (tgtOf c3Proj c3W)) - 1 →
        (autoSegment c3Proj c3Prev 9 2 c3W).1[i]? =
          some (interpPoint c3Prev (tgtOf c3Proj c3W) 9
            (segDist c3Prev (tgtOf c3Proj c3W) / cruiseSpeed)
            (numSegs (segDist c3Prev (tgtOf c3Proj c3W))) c3W 2 (1 + i)))
    ∧ (autoSegment c3Proj c3Prev 9 2 c3W).1.getLast? =
        some (wpPoint (tgtOf c3Proj c3W)
          (9 + segDist c3Prev (tgtOf c3Proj c3W) / cruiseSpeed) c3W 2) :=
  (auto_phase_synthesis c3Proj).1 c3Prev 9 2 c3W
    (by rw [c3_segDist]; norm_num)

/-- Witness for `trajectory_monotone` on a concrete two-waypoint mission
with the default takeoff altitude 10 and hover time 2. -/
theorem trajectory_monotone_witness :
    List.Chain' timeOrdered
      (calculateRealisticTrajectory c7Proj 10 2 c7Waypoints)
    ∧ (calculateRealisticTrajectory c7Proj 10 2 c7Waypoints).head?.map
        TrajPoint.time = some 0 :=
  trajectory_monotone c7Proj 10 2 c7Waypoints (by norm_num)
    (by simp [c7Waypoints])

end Sim

namespace Geo

theorem metersPerDegreeLat_ne_zero : metersPerDegreeLat ≠ 0 := by
  unfold metersPerDegreeLat
  norm_num

/-- Claim C8: projection round trip.  For every origin set via `set_origin`
whose latitude has nonzero cosine and every `(lat, lon)`,
`meters_to_lat_lon(lat_lon_to_meters(lat, lon))` reproduces `(lat, lon)`
exactly in real arithmetic — and in particular within the spec's 1e-9
degree tolerance. -/
theorem projection_round_trip (e : EarthCoordinateSystem)
    (lat0 lon0 lat lon : ℝ) (hc : Real.cos (radians lat0) ≠ 0) :
    (metersToLatLon (setOrigin lat0 lon0 e)
        (latLonToMeters (setOrigin lat0 lon0 e) lat lon).1.1
        (latLonToMeters (setOrigin lat0 lon0 e) lat lon).1.2).1 = (lat, lon)
    ∧ |(metersToLatLon (setOrigin lat0 lon0 e)
        (latLonToMeters (setOrigin lat0 lon0 e) lat lon).1.1
        (latLonToMeters (setOrigin lat0 lon0 e) lat lon).1.2).1.1 - lat| ≤
        1e-9
    ∧ |(metersToLatLon (setOrigin lat0 lon0 e)
        (latLonToMeters (setOrigin lat0 lon0 e) lat lon).1.1
        (latLonToMeters (setOrigin lat0 lon0 e) lat lon).1.2).1.2 - lon| ≤
        1e-9 := by
  have hK : metersPerDegreeLonOf lat0 ≠ 0 := by
    unfold metersPerDegreeLonOf
    exact mul_ne_zero metersPerDegreeLat_ne_zero hc
  have hmain : (metersToLatLon (setOrigin lat0 lon0 e)
      (latLonToMeters (setOrigin lat0 lon0 e) lat lon).1.1
      (latLonToMeters (setOrigin lat0 lon0 e) lat lon).1.2).1 = (lat, lon) := by
    simp only [setOrigin, latLonToMeters, metersToLatLon, Option.getD_some]
    rw [Prod.mk.injEq]
    constructor
    · rw [mul_div_assoc, div_self metersPerDegreeLat_ne_zero, mul_one]
      ring
    · rw [mul_div_assoc, div_self hK, mul_one]
      ring
  refine ⟨hmain, ?_, ?_⟩
  · rw [show (metersToLatLon (setOrigin lat0 lon0 e)
        (latLonToMeters (setOrigin lat0 lon0 e) lat lon).1.1
        (latLonToMeters (setOrigin lat0 lon0 e) lat lon).1.2).1.1 = lat from
      by rw [hmain]]
    norm_num
  · rw [show (metersToLatLon (setOrigin lat0 lon0 e)
        (latLonToMeters (setOrigin lat0 lon0 e) lat lon).1.1
        (latLonToMeters (setOrigin lat0 lon0 e) lat lon).1.2).1.2 = lon from
      by rw [hmain]]
    norm_num

/-- Witness for `projection_round_trip` at the origin (0, 0) and input
point (1, 2): the cosine of latitude 0 is 1. -/
theorem projection_round_trip_witness :
    (metersToLatLon (setOrigin 0 0 ecsInit)
        (latLonToMeters (setOrigin 0 0 ecsInit) 1 2).1.1
        (latLonToMeters (setOrigin 0 0 ecsInit) 1 2).1.2).1 = (1, 2)
    ∧ |(metersToLatLon (setOrigin 0 0 ecsInit)
        (latLonToMeters (setOrigin 0 0 ecsInit) 1 2).1.1
        (latLonToMeters (setOrigin 0 0 ecsInit) 1 2).1.2).1.1 - 1| ≤ 1e-9
    ∧ |(metersToLatLon (setOrigin 0 0 ecsInit)
        (latLonToMeters (setOrigin 0 0 ecsInit) 1 2).1.1
        (latLonToMeters (setOrigin 0 0 ecsInit) 1 2).1.2).1.2 - 2| ≤ 1e-9 :=
  projection_round_trip ecsInit 0 0 1 2
    (by rw [show radians 0 = 0 from by unfold radians; ring, Real.cos_zero]
        norm_num)

/-- Claim C9: unset-origin degradation.  Any conversion requested while the
origin is unset (in particular on the freshly constructed system, before
`set_origin` has ever been called) returns the degenerate pair `(0, 0)` and
signals the warning condition; the embedded functions are total (no
exception) and read-only (the Python methods perform no attribute writes on
this path, so no stored state changes). -/
theorem unset_origin_degraded (e : EarthCoordinateSystem)
    (h : e.originLat = none ∨ e.originLon = none) (lat lon x y : ℝ) :
    latLonToMeters e lat lon = ((0, 0), true)
    ∧ metersToLatLon e x y = ((0, 0), true) := by
  obtain ⟨olat, olon, k⟩ := e
  rcases h with h | h
  · simp only at h
    subst h
    exact ⟨rfl, rfl⟩
  · simp only at h
    subst h
    cases olat with
    | none => exact ⟨rfl, rfl⟩
    | some a => exact ⟨rfl, rfl⟩

/-- Witness for `unset_origin_degraded` on the freshly constructed system. -/
theorem unset_origin_degraded_witness :
    latLonToMeters ecsInit 24 121 = ((0, 0), true)
    ∧ metersToLatLon ecsInit 3 4 = ((0, 0), true) :=
  unset_origin_degraded ecsInit (Or.inl rfl) 24 121 3 4

/-- Claim C10: polar-origin totality.  `meters_to_lat_lon` divides by the
precomputed factor `111111 * cos(radians(origin_lat))` with no zero guard;
for every origin latitude strictly between -90 and 90 degrees the factor is
nonzero so the division is well-defined, while an origin at latitude
exactly 90 or -90 makes the factor zero, so the division-by-zero branch is
reachable there. -/
theorem polar_origin_divisor :
    (∀ lat0 : ℝ, |lat0| < 90 → metersPerDegreeLonOf lat0 ≠ 0)
    ∧ metersPerDegreeLonOf 90 = 0
    ∧ metersPerDegreeLonOf (-90) = 0
    ∧ (∀ (e : EarthCoordinateSystem) (lat0 lon0 x y : ℝ),
        (metersToLatLon (setOrigin lat0 lon0 e) x y).1 =
          (lat0 + y / metersPerDegreeLat,
           lon0 + x / metersPerDegreeLonOf lat0)) := by
  refine ⟨?_, ?_, ?_, ?_⟩
  · intro lat0 h
    obtain ⟨h1, h2⟩ := abs_lt.mp h
    have hpi := Real.pi_pos
    have hb1 : -(Real.pi / 2) < lat0 * Real.pi / 180 := by nlinarith
    have hb2 : lat0 * Real.pi / 180 < Real.pi / 2 := by nlinarith
    unfold metersPerDegreeLonOf radians
    exact mul_ne_zero metersPerDegreeLat_ne_zero
      (ne_of_gt (Real.cos_pos_of_mem_Ioo ⟨hb1, hb2⟩))
  · unfold metersPerDegreeLonOf radians
    rw [show (90 : ℝ) * Real.pi / 180 = Real.pi / 2 from by ring,
      Real.cos_pi_div_two, mul_zero]
  · unfold metersPerDegreeLonOf radians
    rw [show (-90 : ℝ) * Real.pi / 180 = -(Real.pi / 2) from by ring,
      Real.cos_neg, Real.cos_pi_div_two, mul_zero]
  · intro e lat0 lon0 x y
    simp only [setOrigin, metersToLatLon, Option.getD_some]

/-- Witness for `polar_origin_divisor`: the equator is a well-defined
origin. -/
theorem polar_origin_divisor_witness : metersPerDegreeLonOf 0 ≠ 0 :=
  polar_origin_divisor.1 0 (by norm_num)

end Geo

end DroneSim
